import Mathlib

/-!
Shallow embedding of the cruddl domain-model and schema-generation core:
the field/type model (`src/model/implementation/field.ts`), the field-access
compiler (`src/schema-generation/field-nodes.ts`) and the update-input
generation (`src/schema-generation/update-input-types/input-fields.ts`).

Types and fields form an arena: a type is addressed by its index in the
model's type list, a field by the pair (type index, field index).  TypeScript
object identity (`===`) on types and fields is index equality in the arena.
-/

namespace Cruddl

/-- The kinds of `Type` (TypeKind in `model/config`). -/
inductive TypeKind where
  | scalar
  | enum
  | valueObject
  | entityExtension
  | childEntity
  | rootEntity
deriving DecidableEq, Repr

/-- `ObjectType` in the implementation covers the four object kinds
(value object, entity extension, child entity, root entity). -/
def TypeKind.isObjectType : TypeKind → Bool
  | .valueObject => true
  | .entityExtension => true
  | .childEntity => true
  | .rootEntity => true
  | _ => false

/-- A JSON-ish runtime value (`AnyValue` in the source); `undef` is the
JavaScript `undefined`, distinct from `null`. -/
inductive Value where
  | null
  | undef
  | bool (b : Bool)
  | num (n : Int)
  | str (s : String)
  | arr (items : List Value)
  | obj (entries : List (String × Value))

/-- JavaScript loose equality with `undefined` (`value == undefined`),
true exactly for `null` and `undefined`. -/
def Value.isNullish : Value → Bool
  | .null => true
  | .undef => true
  | _ => false

/-- JavaScript strict equality with `null` (`value === null`). -/
def Value.isStrictNull : Value → Bool
  | .null => true
  | _ => false

/-- JavaScript strict equality with `undefined` (`value === undefined`). -/
def Value.isStrictUndef : Value → Bool
  | .undef => true
  | _ => false

/-- JavaScript `Array.isArray`. -/
def Value.isArray : Value → Bool
  | .arr _ => true
  | _ => false

/-- The permission part of a `FieldConfig` (`permissions` input). -/
structure PermissionsConfig where
  permissionProfileName : Option String
  roles : Option (List String)
deriving DecidableEq, Repr

/-- `FieldConfig` plus the `isSystemField` marker, as consumed by the
`Field` constructor. -/
structure FieldConfig where
  name : String
  typeName : String
  isList : Bool := false
  isReference : Bool := false
  isRelation : Bool := false
  isSystemField : Bool := false
  inverseOfFieldName : Option String := none
  calcMutationOperators : List String := []
  defaultValue : Option Value := none
  permissions : Option PermissionsConfig := none

/-- A type declaration: kind, ordered field list and (for root entities)
the name of the field marked with `@key`. -/
structure TypeConfig where
  name : String
  kind : TypeKind
  fields : List FieldConfig
  keyFieldName : Option String := none

/-- The whole model: type declarations (the arena) plus the set of known
permission-profile names. -/
structure Model where
  types : List TypeConfig
  permissionProfiles : List String := []

/-- A field address in the arena: (index of declaring type, index of the
field within that type).  TypeScript object identity on `Field` is equality
of this address. -/
abbrev FieldRef := Nat × Nat

/-- `model.getType(name)`: resolve a type name to its arena index
(the first declaration with that name). -/
def getTypeIdx (m : Model) (name : String) : Option Nat :=
  m.types.findIdx? (fun t => t.name == name)

/-- The type configuration at an arena index. -/
def typeAt (m : Model) (i : Nat) : Option TypeConfig :=
  m.types[i]?

/-- The field configuration at an arena address. -/
def fieldAt (m : Model) (r : FieldRef) : Option FieldConfig :=
  (typeAt m r.1).bind (fun t => t.fields[r.2]?)

/-- `type.getField(name)`: index of the first field with the given name. -/
def findFieldIdx (t : TypeConfig) (name : String) : Option Nat :=
  t.fields.findIdx? (fun f => f.name == name)

/-- The kind of the type a field's `typeName` resolves to (`none` when the
name does not resolve; the source's fallback type has none of the specific
kinds, so kind comparisons against the fallback are all false). -/
def typeKind (m : Model) (name : String) : Option TypeKind :=
  (getTypeIdx m name).bind (fun i => (typeAt m i).map (·.kind))

/-- Kind of the declaring type of a field address. -/
def declKind (m : Model) (r : FieldRef) : Option TypeKind :=
  (typeAt m r.1).map (·.kind)

/-- `field.hasValidType`: the target type name resolves. -/
def hasValidType (m : Model) (f : FieldConfig) : Bool :=
  (getTypeIdx m f.typeName).isSome

/-- `field.inverseOf`: resolve the declared `inverseOf` field name on the
target type (requires the target to resolve to an object type). -/
def inverseOfRef (m : Model) (r : FieldRef) : Option FieldRef :=
  match fieldAt m r with
  | none => none
  | some f =>
    match f.inverseOfFieldName with
    | none => none
    | some invName =>
      match getTypeIdx m f.typeName with
      | none => none
      | some ti =>
        match typeAt m ti with
        | none => none
        | some t =>
          if t.kind.isObjectType then
            (findFieldIdx t invName).map (fun j => (ti, j))
          else
            none

/-- First index `i < n` satisfying `p`, scanning upward from `start`
(`Array.prototype.find` over indices). -/
def firstIdxFrom (p : Nat → Bool) : Nat → Nat → Option Nat
  | _, 0 => none
  | start, n + 1 => if p start then some start else firstIdxFrom p (start + 1) n

/-- `field.inverseField`: the first field of the target type whose
`inverseOf` resolves to this field. -/
def inverseFieldRef (m : Model) (r : FieldRef) : Option FieldRef :=
  match fieldAt m r with
  | none => none
  | some f =>
    match getTypeIdx m f.typeName with
    | none => none
    | some ti =>
      match typeAt m ti with
      | none => none
      | some t =>
        if t.kind.isObjectType then
          (firstIdxFrom (fun j => inverseOfRef m (ti, j) == some r) 0 t.fields.length).map
            (fun j => (ti, j))
        else
          none

/-- A `Relation` value: the four components computed in
`Field.relationSide` (`toField` may be absent for one-sided relations). -/
structure Relation where
  fromType : Nat
  fromField : FieldRef
  toType : Nat
  toField : Option FieldRef
deriving DecidableEq, Repr

/-- Which side of a relation a field is on. -/
inductive Side where
  | fromSide
  | toSide
deriving DecidableEq, Repr

/-- A `RelationSide`: a relation together with the directional view. -/
structure RelationSide where
  relation : Relation
  side : Side
deriving DecidableEq, Repr

/-- `Field.relationSide`: `undefined` unless the field is a relation between
two root-entity types; for a field declaring `inverseOf` it is the to side,
otherwise the from side (with `inverseField` as the optional to field). -/
def relationSideRef (m : Model) (r : FieldRef) : Option RelationSide :=
  match fieldAt m r, typeAt m r.1 with
  | some f, some declType =>
    if f.isRelation && declType.kind == TypeKind.rootEntity then
      match getTypeIdx m f.typeName with
      | none => none
      | some ti =>
        if typeKind m f.typeName == some TypeKind.rootEntity then
          match inverseOfRef m r with
          | some inv =>
            some { relation := { fromType := ti, fromField := inv,
                                 toType := r.1, toField := some r },
                   side := Side.toSide }
          | none =>
            some { relation := { fromType := r.1, fromField := r,
                                 toType := ti, toField := inverseFieldRef m r },
                   side := Side.fromSide }
        else
          none
    else
      none
  | _, _ => none

/-- `Field.relation`: the relation of the relation side, when any. -/
def relationRef (m : Model) (r : FieldRef) : Option Relation :=
  (relationSideRef m r).map (·.relation)

/-- The runtime shapes tested by `TypeCheckQueryNode` (`BasicType`). -/
inductive BasicType where
  | object
  | list
  | null
deriving DecidableEq, Repr

/-- The binary operators used by the compiled field access
(`BinaryOperator`). -/
inductive BinaryOperator where
  | equal
  | unequal
  | and
deriving DecidableEq, Repr

/-- The query-IR vocabulary (`query-tree`), restricted to the node kinds the
field-access compiler constructs.  An `EntitiesQueryNode` carries the arena
index of its root-entity type, a `FieldQueryNode` the address of the accessed
field, a `VariableQueryNode` its label. -/
inductive QueryNode where
  | nullNode
  | variable (label : String)
  | field (source : QueryNode) (field : FieldRef)
  | rootEntityID (source : QueryNode)
  | entities (typeIdx : Nat)
  | binaryOp (lhs : QueryNode) (op : BinaryOperator) (rhs : QueryNode)
  | conditional (condition thenNode elseNode : QueryNode)
  | typeCheck (node : QueryNode) (type : BasicType)
  | transformList (listNode filterNode : QueryNode) (maxCount : Option Nat)
      (itemVariable : QueryNode)
  | firstOfList (listNode : QueryNode)
  | followEdge (relationSide : RelationSide) (source : QueryNode)
  | listNode (items : List QueryNode)
  | objectEmpty
  | literal (value : Value)

/-- Modelled from the spec: the `and` combinator from
`filter-input-types/constants` (not among the provided sources) builds the
conjunction of two filter nodes. -/
def andNode (lhs rhs : QueryNode) : QueryNode :=
  QueryNode.binaryOp lhs BinaryOperator.and rhs

/-- `createSafeListQueryNode`: guard a stored list value, substituting the
empty list when the runtime value is not list-shaped. -/
def createSafeListQueryNode (listNode : QueryNode) : QueryNode :=
  QueryNode.conditional (QueryNode.typeCheck listNode BasicType.list) listNode
    (QueryNode.listNode [])

/-- The key field of a root-entity type (`RootEntityType.keyField`): the
field its `keyFieldName` resolves to. -/
def keyFieldIdx (t : TypeConfig) : Option Nat :=
  t.keyFieldName.bind (findFieldIdx t)

/-- `createFieldNode`: compile read access for a field.  The extra fuel
argument bounds the recursion through reference key fields; `none` models a
thrown error (`getRelationSideOrThrow` / `getKeyFieldOrThrow`) or exhausted
fuel.  The reference branch is the source's `createTo1ReferenceNode`,
inlined so the recursion is structural on the fuel. -/
def createFieldNode : Nat → Model → FieldRef → QueryNode → Option QueryNode
  | 0, _, _, _ => none
  | fuel + 1, m, r, sourceNode =>
    match fieldAt m r with
    | none => none
    | some f =>
      if f.isList then
        if f.isRelation then
          (relationSideRef m r).map (fun rs => QueryNode.followEdge rs sourceNode)
        else
          some (createSafeListQueryNode (QueryNode.field sourceNode r))
      else if f.isRelation then
        (relationSideRef m r).map
          (fun rs => QueryNode.firstOfList (QueryNode.followEdge rs sourceNode))
      else if f.isReference then
        -- createTo1ReferenceNode
        match getTypeIdx m f.typeName with
        | none => none
        | some ti =>
          match typeAt m ti with
          | none => none
          | some referencedEntityType =>
            match keyFieldIdx referencedEntityType with
            | none => none
            | some ki =>
              let referenceKeyNode := QueryNode.field sourceNode r
              let listItemVar := QueryNode.variable f.name
              match createFieldNode fuel m (ti, ki) listItemVar with
              | none => none
              | some itemKeyNode =>
                let equalFilterNode := QueryNode.binaryOp itemKeyNode
                  BinaryOperator.equal referenceKeyNode
                let nonNullFilterNode := QueryNode.binaryOp itemKeyNode
                  BinaryOperator.unequal QueryNode.nullNode
                let filterNode := andNode nonNullFilterNode equalFilterNode
                let filteredListNode := QueryNode.transformList
                  (QueryNode.entities ti) filterNode (some 1) listItemVar
                let rawNode := QueryNode.firstOfList filteredListNode
                some (QueryNode.conditional
                  (QueryNode.typeCheck referenceKeyNode BasicType.null)
                  QueryNode.nullNode rawNode)
      else if declKind m r == some TypeKind.rootEntity && f.isSystemField
          && f.name == "id" then
        some (QueryNode.rootEntityID sourceNode)
      else
        let fieldNode := QueryNode.field sourceNode r
        if typeKind m f.typeName == some TypeKind.entityExtension then
          some (QueryNode.conditional
            (QueryNode.typeCheck fieldNode BasicType.object) fieldNode
            QueryNode.objectEmpty)
        else
          some fieldNode

/-- A `SetFieldQueryNode`: one field-set mutation operation. -/
structure SetFieldQueryNode where
  field : FieldRef
  value : QueryNode

/-- The affected-field set (`Set<Field>`), as an insertion-ordered
duplicate-free list. -/
abbrev FieldSet := List FieldRef

/-- `Set.add`: append the field unless already present. -/
def addToSet (f : FieldRef) (s : FieldSet) : FieldSet :=
  if s.contains f then s else s ++ [f]

namespace UpdateFilterInputField

/-- `UpdateFilterInputField.getProperties`: the filter-only input emits no
mutation nodes. -/
def getProperties (_value : Value) (_currentEntityNode : QueryNode) :
    List SetFieldQueryNode :=
  []

/-- `UpdateFilterInputField.collectAffectedFields`: the filter-only input
adds nothing to the affected-field set. -/
def collectAffectedFields (_value : Value) (fields : FieldSet) : FieldSet :=
  fields

end UpdateFilterInputField

namespace BasicUpdateInputField

/-- `BasicUpdateInputField.coerceValue`: the identity. -/
def coerceValue (value : Value) : Value :=
  value

/-- `BasicUpdateInputField.getProperties`: one set-field node carrying the
coerced value as a literal. -/
def getProperties (field : FieldRef) (value : Value) : List SetFieldQueryNode :=
  [{ field := field, value := QueryNode.literal (coerceValue value) }]

/-- `BasicUpdateInputField.collectAffectedFields`: add the field itself. -/
def collectAffectedFields (field : FieldRef) (_value : Value)
    (fields : FieldSet) : FieldSet :=
  addToSet field fields

end BasicUpdateInputField

namespace BasicListUpdateInputField

/-- `BasicListUpdateInputField.coerceValue`: a strict `null` becomes the
empty list; everything else passes through the base coercion. -/
def coerceValue (value : Value) : Value :=
  let value := BasicUpdateInputField.coerceValue value
  if value.isStrictNull then Value.arr [] else value

/-- Inherited `getProperties` composed with the overridden coercion. -/
def getProperties (field : FieldRef) (value : Value) : List SetFieldQueryNode :=
  [{ field := field, value := QueryNode.literal (coerceValue value) }]

/-- Inherited `collectAffectedFields`: add the field itself. -/
def collectAffectedFields (field : FieldRef) (_value : Value)
    (fields : FieldSet) : FieldSet :=
  addToSet field fields

end BasicListUpdateInputField

namespace UpdateValueObjectInputField

/-- `UpdateValueObjectInputField.coerceValue`, with the nested create-input
type's `prepareValue` passed as a function. -/
def coerceValue (prepareValue : Value → Value) (value : Value) : Value :=
  let value := BasicUpdateInputField.coerceValue value
  if value.isNullish then value else prepareValue value

/-- `UpdateValueObjectInputField.collectAffectedFields`, with the nested
create-input type's collector passed as a function. -/
def collectAffectedFields (collectNested : Value → FieldSet → FieldSet)
    (field : FieldRef) (value : Value) (fields : FieldSet) : FieldSet :=
  let fields := BasicUpdateInputField.collectAffectedFields field value fields
  if value.isNullish then fields else collectNested value fields

end UpdateValueObjectInputField

namespace UpdateValueObjectListInputField

/-- `UpdateValueObjectListInputField.coerceValue`: a strict `null` becomes
the empty list, `undefined` passes through, a non-array raises, and an array
is prepared element-wise. -/
def coerceValue (prepareValue : Value → Value) (value : Value) :
    Except String Value :=
  let value := BasicUpdateInputField.coerceValue value
  if value.isStrictNull then Except.ok (Value.arr [])
  else if value.isStrictUndef then Except.ok Value.undef
  else
    match value with
    | Value.arr items => Except.ok (Value.arr (items.map prepareValue))
    | _ => Except.error "Expected value to be an array"

/-- `UpdateValueObjectListInputField.collectAffectedFields`: the field itself
is added first; a nullish value stops there, a non-array raises, and an array
recurses into the nested collector. -/
def collectAffectedFields (collectNested : Value → FieldSet → FieldSet)
    (field : FieldRef) (value : Value) (fields : FieldSet) :
    Except String FieldSet :=
  let fields := BasicUpdateInputField.collectAffectedFields field value fields
  if value.isNullish then Except.ok fields
  else
    match value with
    | Value.arr items =>
      Except.ok (items.foldl (fun acc v => collectNested v acc) fields)
    | _ => Except.error "Expected value to be an array"

end UpdateValueObjectListInputField

/-- One entry of the static calc-mutation operator table
(`CALC_MUTATIONS_OPERATORS`): the operator name and the scalar type names it
supports.  The table lives outside the provided sources, so it is passed as
a parameter everywhere it is consulted. -/
structure CalcMutationOperator where
  name : String
  supportedTypes : List String
deriving DecidableEq, Repr

/-- `getCalcMutationOperatorOrThrow`: look an operator up in the static
table, raising when it is absent. -/
def getCalcMutationOperatorOrThrow (table : List CalcMutationOperator)
    (operator : String) : Except String CalcMutationOperator :=
  match table.find? (fun op => op.name == operator) with
  | some value => Except.ok value
  | none => Except.error ("Calc mutation operator is not defined: " ++ operator)

/-- The kinds of update input fields `UpdateInputTypeGenerator.generateFields`
can produce, each carrying the model field it belongs to.  Kinds whose class
lives outside the provided sources (child-entity and relation inputs) appear
as opaque labels. -/
inductive UpdateInputFieldDesc where
  | updateFilter (field : FieldRef)
  | basic (field : FieldRef)
  | basicList (field : FieldRef)
  | calcMutation (field : FieldRef) (operator : String)
  | updateValueObject (field : FieldRef)
  | updateValueObjectList (field : FieldRef)
  | updateEntityExtension (field : FieldRef)
  | addChildEntities (field : FieldRef)
  | updateChildEntities (field : FieldRef)
  | removeChildEntities (field : FieldRef)
  | addEdges (field : FieldRef)
  | removeEdges (field : FieldRef)
  | createAndAddEdges (field : FieldRef)
  | setEdge (field : FieldRef)
  | createAndSetEdge (field : FieldRef)
deriving DecidableEq, Repr

/-- `UpdateInputTypeGenerator.generateFields`: the update input fields for
one model field, with the `skipID` / `skipRelations` options.  `Except.error`
models a thrown internal fault. -/
def generateFields (table : List CalcMutationOperator) (m : Model)
    (r : FieldRef) (skipID : Bool := false) (skipRelations : Bool := false) :
    Except String (List UpdateInputFieldDesc) :=
  match fieldAt m r with
  | none => Except.error "field not found"
  | some f =>
    if f.isSystemField then
      if !skipID
          && (declKind m r == some TypeKind.rootEntity
              || declKind m r == some TypeKind.childEntity)
          && f.name == "id" then
        Except.ok [UpdateInputFieldDesc.updateFilter r]
      else
        Except.ok []
    else if typeKind m f.typeName == some TypeKind.scalar
        || typeKind m f.typeName == some TypeKind.enum then
      if f.isList then
        Except.ok [UpdateInputFieldDesc.basicList r]
      else
        match f.calcMutationOperators.eraseDups.mapM
            (getCalcMutationOperatorOrThrow table) with
        | Except.error e => Except.error e
        | Except.ok ops =>
          Except.ok (UpdateInputFieldDesc.basic r ::
            ops.map (fun op => UpdateInputFieldDesc.calcMutation r op.name))
    else if typeKind m f.typeName == some TypeKind.valueObject then
      if f.isList then
        Except.ok [UpdateInputFieldDesc.updateValueObjectList r]
      else
        Except.ok [UpdateInputFieldDesc.updateValueObject r]
    else if typeKind m f.typeName == some TypeKind.entityExtension then
      Except.ok [UpdateInputFieldDesc.updateEntityExtension r]
    else if typeKind m f.typeName == some TypeKind.childEntity then
      Except.ok [UpdateInputFieldDesc.addChildEntities r,
        UpdateInputFieldDesc.updateChildEntities r,
        UpdateInputFieldDesc.removeChildEntities r]
    else if f.isReference then
      match (getTypeIdx m f.typeName).bind (fun ti =>
          (typeAt m ti).bind keyFieldIdx) with
      | none => Except.error "type has no key field"
      | some _ => Except.ok [UpdateInputFieldDesc.basic r]
    else if f.isRelation then
      if skipRelations then
        Except.ok []
      else if f.isList then
        Except.ok [UpdateInputFieldDesc.addEdges r,
          UpdateInputFieldDesc.removeEdges r,
          UpdateInputFieldDesc.createAndAddEdges r]
      else
        Except.ok [UpdateInputFieldDesc.setEdge r,
          UpdateInputFieldDesc.createAndSetEdge r]
    else
      Except.error "Field has an unexpected configuration"

/-- Severity of a validation message. -/
inductive Severity where
  | error
  | warn
  | info
deriving DecidableEq, Repr

/-- The texts of the diagnostics `Field.validate` can emit, one constructor
per message template, carrying the values interpolated into it. -/
inductive MsgText where
  | nameEmpty
  | nameLeadingUnderscore
  | nameWithUnderscore
  | nameNotLowercase
  | typeNotFound (typeName : String)
  | referenceAndRelationCombined
  | rootEntityEmbeddedInValueObject (typeName : String)
  | rootEntityEmbedded (typeName : String)
  | relationOnNonRootEntity
  | relationTargetNotRootEntity (typeName : String)
  | inverseFieldDoesNotExist (fieldName typeName : String)
  | inverseFieldWrongType (targetTypeName invName declName name actual : String)
  | inverseFieldNotRelation (targetTypeName invName declName name : String)
  | inverseFieldDeclaresInverse (targetTypeName invName declName name : String)
  | separateRelationsWarning (otherDeclName otherName : String)
  | multipleInverseFields (names : List String) (declName name : String)
  | referenceTargetNotRootEntity (typeName : String)
  | referenceOnList
  | referenceTargetHasNoKey (typeName : String)
  | extensionInValueObject (typeName declName name : String)
  | extensionInList (typeName : String)
  | childEntityInValueObject (typeName declName name : String)
  | childEntityNotInList (typeName : String)
  | permissionProfileAndRolesCombined
  | permissionProfileNotFound (profileName : String)
  | defaultValueOnRelation
  | defaultValueNotTypeChecked
  | calcMutationsOnList
  | calcMutationsNoSupportedOperators (typeName : String)
  | calcMutationsOperatorNotSupported (operator typeName : String)
      (supportedOperators : List String)
deriving DecidableEq, Repr

/-- A validation message: severity, text and the field whose AST location
it is attached to. -/
structure ValidationMessage where
  severity : Severity
  text : MsgText
  loc : FieldRef
deriving DecidableEq, Repr

/-- `ValidationMessage.error`. -/
def errMsg (t : MsgText) (l : FieldRef) : ValidationMessage :=
  { severity := Severity.error, text := t, loc := l }

/-- `ValidationMessage.warn`. -/
def warnMsg (t : MsgText) (l : FieldRef) : ValidationMessage :=
  { severity := Severity.warn, text := t, loc := l }

/-- `ValidationMessage.info`. -/
def infoMsg (t : MsgText) (l : FieldRef) : ValidationMessage :=
  { severity := Severity.info, text := t, loc := l }

/-- `name.startsWith('_')`: the first character is an underscore. -/
def startsWithUnderscore (name : String) : Bool :=
  match name.data with
  | [] => false
  | c :: _ => c == '_'

/-- `name.includes('_')`: some character is an underscore. -/
def includesUnderscore (name : String) : Bool :=
  name.data.contains '_'

/-- `name.match(/^[a-z]/)`: the first character is a lowercase ASCII
letter. -/
def startsWithLowercase (name : String) : Bool :=
  match name.data with
  | [] => false
  | c :: _ => c.isLower

/-- `Field.validateName`. -/
def validateName (name : String) (r : FieldRef) : List ValidationMessage :=
  if name = "" then
    [errMsg MsgText.nameEmpty r]
  else if startsWithUnderscore name then
    [errMsg MsgText.nameLeadingUnderscore r]
  else if includesUnderscore name then
    [warnMsg MsgText.nameWithUnderscore r]
  else if !(startsWithLowercase name) then
    [warnMsg MsgText.nameNotLowercase r]
  else
    []

/-- `Field.validateType`. -/
def validateType (m : Model) (f : FieldConfig) (r : FieldRef) :
    List ValidationMessage :=
  if (getTypeIdx m f.typeName).isNone then
    [errMsg (MsgText.typeNotFound f.typeName) r]
  else
    []

/-- `Field.validatePermissions`.  `RolesSpecifier.validate` is outside the
provided sources; modelled from the spec, which describes no diagnostics of
its own for role specifiers, it contributes none here. -/
def validatePermissions (m : Model) (f : FieldConfig) (r : FieldRef) :
    List ValidationMessage :=
  let p := f.permissions.getD { permissionProfileName := none, roles := none }
  (if p.permissionProfileName.isSome && p.roles.isSome then
    [errMsg MsgText.permissionProfileAndRolesCombined r,
     errMsg MsgText.permissionProfileAndRolesCombined r]
  else []) ++
  (match p.permissionProfileName with
   | some profileName =>
     if !(m.permissionProfiles.contains profileName) then
       [errMsg (MsgText.permissionProfileNotFound profileName) r]
     else []
   | none => [])

/-- `Field.validateRootEntityType`. -/
def validateRootEntityType (m : Model) (f : FieldConfig) (r : FieldRef) :
    List ValidationMessage :=
  (if f.isReference && f.isRelation then
    [errMsg MsgText.referenceAndRelationCombined r]
  else []) ++
  (if typeKind m f.typeName != some TypeKind.rootEntity then []
   else if !f.isRelation && !f.isReference then
     if declKind m r == some TypeKind.valueObject then
       [errMsg (MsgText.rootEntityEmbeddedInValueObject f.typeName) r]
     else
       [errMsg (MsgText.rootEntityEmbedded f.typeName) r]
   else [])

/-- `Field.validateEntityExtensionType`. -/
def validateEntityExtensionType (m : Model) (f : FieldConfig) (r : FieldRef)
    (declName : String) : List ValidationMessage :=
  if typeKind m f.typeName != some TypeKind.entityExtension then []
  else if declKind m r == some TypeKind.valueObject then
    [errMsg (MsgText.extensionInValueObject f.typeName declName f.name) r]
  else if f.isList then
    [errMsg (MsgText.extensionInList f.typeName) r]
  else []

/-- `Field.validateChildEntityType`. -/
def validateChildEntityType (m : Model) (f : FieldConfig) (r : FieldRef)
    (declName : String) : List ValidationMessage :=
  if typeKind m f.typeName != some TypeKind.childEntity then []
  else if declKind m r == some TypeKind.valueObject then
    [errMsg (MsgText.childEntityInValueObject f.typeName declName f.name) r]
  else if !f.isList then
    [errMsg (MsgText.childEntityNotInList f.typeName) r]
  else []

/-- The indices of the fields of target type `t` (at arena index `ti`) whose
`inverseOf` resolves to the field `r`
(`this.type.fields.filter(field => field.inverseOf === this)`). -/
def inverseFieldIdxs (m : Model) (ti : Nat) (t : TypeConfig) (r : FieldRef) :
    List Nat :=
  (List.range t.fields.length).filter (fun j => inverseOfRef m (ti, j) == some r)

/-- The interpolated names of the matching inverse fields
(`inverseFields.map(f => ...)`). -/
def multipleInverseNames (m : Model) (ti : Nat) (t : TypeConfig)
    (r : FieldRef) : List String :=
  (inverseFieldIdxs m ti t r).map (fun j =>
    t.name ++ "." ++ ((t.fields[j]?.map (fun g => g.name)).getD ""))

/-- `Field.validateRelation`, for the field at `r` with configuration `f`
declared on the type named `declName`. -/
def validateRelation (m : Model) (f : FieldConfig) (r : FieldRef)
    (declName : String) : List ValidationMessage :=
  if !f.isRelation then []
  else
    (if declKind m r != some TypeKind.rootEntity then
      [errMsg MsgText.relationOnNonRootEntity r]
    else []) ++
    (if !(hasValidType m f) then []
     else if typeKind m f.typeName != some TypeKind.rootEntity then
       [errMsg (MsgText.relationTargetNotRootEntity f.typeName) r]
     else
       match getTypeIdx m f.typeName with
       | none => []
       | some ti =>
         match typeAt m ti with
         | none => []
         | some targetType =>
           match f.inverseOfFieldName with
           | some invName =>
             match findFieldIdx targetType invName with
             | none =>
               [errMsg (MsgText.inverseFieldDoesNotExist invName targetType.name) r]
             | some yi =>
               match targetType.fields[yi]? with
               | none => []
               | some inverseOfField =>
                 if getTypeIdx m inverseOfField.typeName != some r.1 then
                   [errMsg (MsgText.inverseFieldWrongType targetType.name invName
                     declName f.name inverseOfField.typeName) r]
                 else if !inverseOfField.isRelation then
                   [errMsg (MsgText.inverseFieldNotRelation targetType.name invName
                     declName f.name) r]
                 else if (inverseOfRef m (ti, yi)).isSome then
                   [errMsg (MsgText.inverseFieldDeclaresInverse targetType.name
                     invName declName f.name) r]
                 else []
           | none =>
             let inverseIdxs := inverseFieldIdxs m ti targetType r
             if inverseIdxs.length = 0 then
               match firstIdxFrom (fun j =>
                   match targetType.fields[j]? with
                   | none => false
                   | some g => g.isRelation
                       && getTypeIdx m g.typeName == some r.1
                       && g.inverseOfFieldName == none) 0
                   targetType.fields.length with
               | some mi =>
                 [warnMsg (MsgText.separateRelationsWarning targetType.name
                   ((targetType.fields[mi]?.map (fun g => g.name)).getD "")) r]
               | none => []
             else if inverseIdxs.length > 1 then
               inverseIdxs.map (fun j =>
                 errMsg (MsgText.multipleInverseFields
                   (multipleInverseNames m ti targetType r) declName f.name) (ti, j))
             else [])

/-- `Field.validateReference`. -/
def validateReference (m : Model) (f : FieldConfig) (r : FieldRef) :
    List ValidationMessage :=
  if !f.isReference then []
  else if !(hasValidType m f) then []
  else if typeKind m f.typeName != some TypeKind.rootEntity then
    [errMsg (MsgText.referenceTargetNotRootEntity f.typeName) r]
  else
    (if f.isList then
      [errMsg MsgText.referenceOnList r]
    else []) ++
    (if ((getTypeIdx m f.typeName).bind (fun ti =>
        (typeAt m ti).bind keyFieldIdx)).isNone then
      [errMsg (MsgText.referenceTargetHasNoKey f.typeName) r]
    else [])

/-- `Field.validateDefaultValue`. -/
def validateDefaultValue (f : FieldConfig) (r : FieldRef) :
    List ValidationMessage :=
  match f.defaultValue with
  | none => []
  | some _ =>
    if f.isRelation then
      [errMsg MsgText.defaultValueOnRelation r]
    else
      [infoMsg MsgText.defaultValueNotTypeChecked r]

/-- The per-operator loop of `Field.validateCalcMutations`: emit one error
per declared operator the table supports elsewhere but not for this type,
raising at an operator absent from the table. -/
def calcMutationsLoop (table : List CalcMutationOperator) (typeName : String)
    (supportedOperators : List String) (r : FieldRef) :
    List String → Except String (List ValidationMessage)
  | [] => Except.ok []
  | operator :: rest =>
    match table.find? (fun op => op.name == operator) with
    | none => Except.error ("Unknown calc mutation operator: " ++ operator)
    | some desc =>
      match calcMutationsLoop table typeName supportedOperators r rest with
      | Except.error e => Except.error e
      | Except.ok msgs =>
        Except.ok
          ((if !(desc.supportedTypes.contains typeName) then
             [errMsg (MsgText.calcMutationsOperatorNotSupported operator typeName
               supportedOperators) r]
           else []) ++ msgs)

/-- The names of the table operators supporting a given type
(`CALC_MUTATIONS_OPERATORS.filter(op => op.supportedTypes.includes(...))`). -/
def supportedOperatorNames (table : List CalcMutationOperator)
    (typeName : String) : List String :=
  (table.filter (fun op => op.supportedTypes.contains typeName)).map
    (fun op => op.name)

/-- `Field.validateCalcMutations`; `Except.error` models the thrown internal
fault for an operator missing from the static table. -/
def validateCalcMutations (table : List CalcMutationOperator) (f : FieldConfig)
    (r : FieldRef) : Except String (List ValidationMessage) :=
  let operators := f.calcMutationOperators.eraseDups
  if operators.isEmpty then Except.ok []
  else if f.isList then
    Except.ok [errMsg MsgText.calcMutationsOnList r]
  else
    let supportedOperators := supportedOperatorNames table f.typeName
    if supportedOperators.isEmpty then
      Except.ok [errMsg (MsgText.calcMutationsNoSupportedOperators f.typeName) r]
    else
      calcMutationsLoop table f.typeName supportedOperators r operators

/-- `Field.validate`: the fixed per-field validation pipeline, in source
order.  The thrown internal fault of the calc-mutation check aborts the run
(`Except.error`). -/
def validateField (table : List CalcMutationOperator) (m : Model)
    (r : FieldRef) : Except String (List ValidationMessage) :=
  match fieldAt m r with
  | none => Except.ok []
  | some f =>
    let declName := ((typeAt m r.1).map (fun t => t.name)).getD ""
    match validateCalcMutations table f r with
    | Except.error e => Except.error e
    | Except.ok calcMsgs =>
      Except.ok (validateName f.name r ++ validateType m f r
        ++ validatePermissions m f r ++ validateRootEntityType m f r
        ++ validateEntityExtensionType m f r declName
        ++ validateChildEntityType m f r declName
        ++ validateRelation m f r declName
        ++ validateReference m f r
        ++ validateDefaultValue f r
        ++ calcMsgs)

/-- All field addresses of a model, in declaration order. -/
def allFieldRefs (m : Model) : List FieldRef :=
  (List.range m.types.length).flatMap (fun i =>
    (List.range (((typeAt m i).map (fun t => t.fields.length)).getD 0)).map
      (fun j => (i, j)))

/-- Validation of a list of fields, concatenating their diagnostics. -/
def validateFieldList (table : List CalcMutationOperator) (m : Model) :
    List FieldRef → Except String (List ValidationMessage)
  | [] => Except.ok []
  | r :: rest =>
    match validateField table m r with
    | Except.error e => Except.error e
    | Except.ok msgs =>
      match validateFieldList table m rest with
      | Except.error e => Except.error e
      | Except.ok msgsRest => Except.ok (msgs ++ msgsRest)

/-- Modelled from the spec: whole-model validation runs the per-field
pipeline over every field of every type and returns one consolidated batch
of diagnostics (type-level checks are outside the provided sources and
contribute nothing here). -/
def validateModel (table : List CalcMutationOperator) (m : Model) :
    Except String (List ValidationMessage) :=
  validateFieldList table m (allFieldRefs m)

/-!
Concrete example models used by witnesses and counterexamples.
-/

/-- A model with a reference field: `Order.customer` references `Customer`,
which is keyed by its `code` field. -/
def refModel : Model :=
  { types := [
      { name := "Order", kind := TypeKind.rootEntity,
        fields := [{ name := "customer", typeName := "Customer",
                     isReference := true }] },
      { name := "Customer", kind := TypeKind.rootEntity,
        fields := [{ name := "code", typeName := "String" }],
        keyFieldName := some "code" },
      { name := "String", kind := TypeKind.scalar, fields := [] }] }

/-- A model with a system `id` field on a root-entity type. -/
def rootIdModel : Model :=
  { types := [
      { name := "Order", kind := TypeKind.rootEntity,
        fields := [{ name := "id", typeName := "ID", isSystemField := true }] },
      { name := "ID", kind := TypeKind.scalar, fields := [] }] }

/-- A model with a system `id` field on a child-entity type. -/
def childIdModel : Model :=
  { types := [
      { name := "Item", kind := TypeKind.childEntity,
        fields := [{ name := "id", typeName := "ID", isSystemField := true }] },
      { name := "ID", kind := TypeKind.scalar, fields := [] }] }

/-- A relation pair: `Movie.actors` targets `Actor`, and `Actor.movie`
declares `inverseOf: "actors"`. -/
def relPairModel : Model :=
  { types := [
      { name := "Movie", kind := TypeKind.rootEntity,
        fields := [{ name := "actors", typeName := "Actor",
                     isRelation := true }] },
      { name := "Actor", kind := TypeKind.rootEntity,
        fields := [{ name := "movie", typeName := "Movie", isRelation := true,
                     inverseOfFieldName := some "actors" }] }] }

/-- Two fields on `Actor` both declare `inverseOf: "actors"`. -/
def multiInverseModel : Model :=
  { types := [
      { name := "Movie", kind := TypeKind.rootEntity,
        fields := [{ name := "actors", typeName := "Actor",
                     isRelation := true }] },
      { name := "Actor", kind := TypeKind.rootEntity,
        fields := [{ name := "movieA", typeName := "Movie", isRelation := true,
                     inverseOfFieldName := some "actors" },
                   { name := "movieB", typeName := "Movie", isRelation := true,
                     inverseOfFieldName := some "actors" }] }] }

/-- `Movie.actors` declares `inverseOf: "movie"`, and `Actor.movie` itself
declares `inverseOf: "ghost"` where `ghost` does not exist on `Movie`:
a dangling second-level inverse declaration. -/
def danglingInverseModel : Model :=
  { types := [
      { name := "Movie", kind := TypeKind.rootEntity,
        fields := [{ name := "actors", typeName := "Actor", isRelation := true,
                     inverseOfFieldName := some "movie" }] },
      { name := "Actor", kind := TypeKind.rootEntity,
        fields := [{ name := "movie", typeName := "Movie", isRelation := true,
                     inverseOfFieldName := some "ghost" }] }] }

/-- `Movie.actors` declares `inverseOf: "movie"`, and `Actor.movie` itself
declares `inverseOf: "actors"`, which resolves: a doubly-declared inverse
chain. -/
def resolvedDoubleInverseModel : Model :=
  { types := [
      { name := "Movie", kind := TypeKind.rootEntity,
        fields := [{ name := "actors", typeName := "Actor", isRelation := true,
                     inverseOfFieldName := some "movie" }] },
      { name := "Actor", kind := TypeKind.rootEntity,
        fields := [{ name := "movie", typeName := "Movie", isRelation := true,
                     inverseOfFieldName := some "actors" }] }] }

/-- A small calc-mutation operator table: `ADD` supporting `Int`/`Float`. -/
def addOnlyTable : List CalcMutationOperator :=
  [{ name := "ADD", supportedTypes := ["Int", "Float"] }]

/-- A non-list `Boolean` field declaring the in-table operator `ADD` (which
does not support `Boolean`) and the unknown operator `FOO`. -/
def boolCalcField : FieldConfig :=
  { name := "flag", typeName := "Boolean",
    calcMutationOperators := ["ADD", "FOO"] }

/-!
Claim theorems.
-/

/-- C10: field-name validation emits at most one diagnostic, chosen by the
first matching rule in the order: empty name (error), leading underscore
(error), embedded underscore (warning), non-lowercase initial letter
(warning); a name with an embedded underscore gets only the underscore
warning even when its initial letter is not lowercase. -/
theorem validateName_at_most_one_first_match (name : String) (r : FieldRef) :
    (validateName name r).length ≤ 1
    ∧ (name = "" → validateName name r = [errMsg MsgText.nameEmpty r])
    ∧ (name ≠ "" → startsWithUnderscore name = true →
        validateName name r = [errMsg MsgText.nameLeadingUnderscore r])
    ∧ (name ≠ "" → startsWithUnderscore name = false →
        includesUnderscore name = true →
        validateName name r = [warnMsg MsgText.nameWithUnderscore r])
    ∧ (name ≠ "" → startsWithUnderscore name = false →
        includesUnderscore name = false → startsWithLowercase name = false →
        validateName name r = [warnMsg MsgText.nameNotLowercase r])
    ∧ (name ≠ "" → startsWithUnderscore name = false →
        includesUnderscore name = false → startsWithLowercase name = true →
        validateName name r = []) := by
  refine ⟨?_, ?_, ?_, ?_, ?_, ?_⟩
  · unfold validateName
    split
    · simp
    · split
      · simp
      · split
        · simp
        · split <;> simp
  · intro h1
    simp [validateName, h1]
  · intro h1 h2
    simp [validateName, h1, h2]
  · intro h1 h2 h3
    simp [validateName, h1, h2, h3]
  · intro h1 h2 h3 h4
    simp [validateName, h1, h2, h3, h4]
  · intro h1 h2 h3 h4
    simp [validateName, h1, h2, h3, h4]

/-- Witness for C10 at the name `Ab_c`: embedded underscore plus uppercase
initial letter yields only the underscore warning. -/
theorem validateName_at_most_one_first_match_witness :
    validateName "Ab_c" (0, 0) = [warnMsg MsgText.nameWithUnderscore (0, 0)] :=
  (validateName_at_most_one_first_match "Ab_c" (0, 0)).2.2.2.1
    (by decide) (by decide) (by decide)

/-- The field being added is a member of the grown affected-field set. -/
theorem mem_addToSet_self (f : FieldRef) (s : FieldSet) : f ∈ addToSet f s := by
  unfold addToSet
  split
  · next h => exact List.mem_of_elem_eq_true h
  · exact List.mem_append.mpr (Or.inr (List.mem_singleton.mpr rfl))

/-- C7: for list-typed setter inputs of an update input type (scalar/enum
list and value-object list), coercing `null` yields the empty list, never
null, and collecting affected fields for `null` still adds the field itself
to the affected-field set. -/
theorem null_list_input_coercion (f : FieldRef) (s : FieldSet)
    (prepareValue : Value → Value)
    (collectNested : Value → FieldSet → FieldSet) :
    BasicListUpdateInputField.coerceValue Value.null = Value.arr []
    ∧ BasicListUpdateInputField.collectAffectedFields f Value.null s = addToSet f s
    ∧ f ∈ BasicListUpdateInputField.collectAffectedFields f Value.null s
    ∧ UpdateValueObjectListInputField.coerceValue prepareValue Value.null
        = Except.ok (Value.arr [])
    ∧ UpdateValueObjectListInputField.collectAffectedFields collectNested f
        Value.null s = Except.ok (addToSet f s)
    ∧ f ∈ addToSet f s :=
  ⟨rfl, rfl, mem_addToSet_self f s, rfl, rfl, mem_addToSet_self f s⟩

/-- Witness for C7 at a concrete field address and empty affected-field
set. -/
theorem null_list_input_coercion_witness :
    BasicListUpdateInputField.coerceValue Value.null = Value.arr []
    ∧ (0, 0) ∈ BasicListUpdateInputField.collectAffectedFields (0, 0)
        Value.null [] :=
  ⟨(null_list_input_coercion (0, 0) [] id (fun _ s => s)).1,
   (null_list_input_coercion (0, 0) [] id (fun _ s => s)).2.2.1⟩

/-- C8: the update input compiled for the system identity field is the
filter-only input field, which emits no set-field mutation nodes and adds
nothing to the affected-field set; with `skipID` (the update-all shape) no
input field is generated for the identity field at all. -/
theorem identity_update_input_filter_only
    (table : List CalcMutationOperator) (m : Model) (r : FieldRef)
    (f : FieldConfig) (skipRelations : Bool)
    (hf : fieldAt m r = some f)
    (hsys : f.isSystemField = true)
    (hname : f.name = "id")
    (hdecl : declKind m r = some TypeKind.rootEntity
        ∨ declKind m r = some TypeKind.childEntity) :
    (∀ v node, UpdateFilterInputField.getProperties v node = [])
    ∧ (∀ v s, UpdateFilterInputField.collectAffectedFields v s = s)
    ∧ generateFields table m r false skipRelations
        = Except.ok [UpdateInputFieldDesc.updateFilter r]
    ∧ generateFields table m r true skipRelations = Except.ok [] := by
  refine ⟨fun _ _ => rfl, fun _ _ => rfl, ?_, ?_⟩
  · unfold generateFields
    rw [hf]
    rcases hdecl with h | h <;> simp [hsys, hname, h]
  · unfold generateFields
    rw [hf]
    simp [hsys]

/-- Witness for C8 on the concrete root-entity `id` field of `rootIdModel`. -/
theorem identity_update_input_filter_only_witness :
    generateFields [] rootIdModel (0, 0) false false
        = Except.ok [UpdateInputFieldDesc.updateFilter (0, 0)]
    ∧ generateFields [] rootIdModel (0, 0) true false = Except.ok [] :=
  ⟨(identity_update_input_filter_only [] rootIdModel (0, 0) _ false rfl rfl rfl
      (Or.inl rfl)).2.2.1,
   (identity_update_input_filter_only [] rootIdModel (0, 0) _ false rfl rfl rfl
      (Or.inl rfl)).2.2.2⟩

/-- C1: read access for a non-list reference field whose target root-entity
type has a key field compiles to a conditional on the stored key being null:
null yields the constant null node (no entity-set node), otherwise the first
element of a list transform over the referenced type's entity set filtered by
the conjunction of a key-non-null check and a key-equality comparison, with
the result count capped at 1. -/
theorem reference_read_compilation (fuel : Nat) (m : Model) (r : FieldRef)
    (f : FieldConfig) (ti ki : Nat) (u : TypeConfig) (src itemKey : QueryNode)
    (hf : fieldAt m r = some f)
    (hlist : f.isList = false)
    (hrel : f.isRelation = false)
    (href : f.isReference = true)
    (ht : getTypeIdx m f.typeName = some ti)
    (hu : typeAt m ti = some u)
    (hroot : u.kind = TypeKind.rootEntity)
    (hk : keyFieldIdx u = some ki)
    (hik : createFieldNode fuel m (ti, ki) (QueryNode.variable f.name)
        = some itemKey) :
    createFieldNode (fuel + 1) m r src =
      some (QueryNode.conditional
        (QueryNode.typeCheck (QueryNode.field src r) BasicType.null)
        QueryNode.nullNode
        (QueryNode.firstOfList (QueryNode.transformList
          (QueryNode.entities ti)
          (andNode
            (QueryNode.binaryOp itemKey BinaryOperator.unequal QueryNode.nullNode)
            (QueryNode.binaryOp itemKey BinaryOperator.equal
              (QueryNode.field src r)))
          (some 1)
          (QueryNode.variable f.name)))) := by
  unfold createFieldNode
  rw [hf]
  simp only [hlist, hrel, href, Bool.false_eq_true, if_false, if_true,
    ht, hu, hk, hik]

/-- Witness for C1 on `refModel`: compiling `Order.customer` (a reference to
`Customer`, keyed by `code`). -/
theorem reference_read_compilation_witness :
    createFieldNode 2 refModel (0, 0) (QueryNode.variable "src") =
      some (QueryNode.conditional
        (QueryNode.typeCheck (QueryNode.field (QueryNode.variable "src") (0, 0))
          BasicType.null)
        QueryNode.nullNode
        (QueryNode.firstOfList (QueryNode.transformList
          (QueryNode.entities 1)
          (andNode
            (QueryNode.binaryOp
              (QueryNode.field (QueryNode.variable "customer") (1, 0))
              BinaryOperator.unequal QueryNode.nullNode)
            (QueryNode.binaryOp
              (QueryNode.field (QueryNode.variable "customer") (1, 0))
              BinaryOperator.equal
              (QueryNode.field (QueryNode.variable "src") (0, 0))))
          (some 1)
          (QueryNode.variable "customer")))) :=
  reference_read_compilation 1 refModel (0, 0)
    { name := "customer", typeName := "Customer", isReference := true } 1 0
    { name := "Customer", kind := TypeKind.rootEntity,
      fields := [{ name := "code", typeName := "String" }],
      keyFieldName := some "code" }
    (QueryNode.variable "src")
    (QueryNode.field (QueryNode.variable "customer") (1, 0))
    rfl rfl rfl rfl rfl rfl rfl rfl rfl

/-- C6 counterexample: on `childIdModel`, the system `id` field of the
child-entity type `Item` compiles to an ordinary field-storage read, not to
the dedicated identity-accessor node. -/
theorem child_identity_field_not_id_node :
    createFieldNode 1 childIdModel (0, 0) (QueryNode.variable "src")
        = some (QueryNode.field (QueryNode.variable "src") (0, 0))
    ∧ createFieldNode 1 childIdModel (0, 0) (QueryNode.variable "src")
        ≠ some (QueryNode.rootEntityID (QueryNode.variable "src")) := by
  have h1 : createFieldNode 1 childIdModel (0, 0) (QueryNode.variable "src")
      = some (QueryNode.field (QueryNode.variable "src") (0, 0)) := rfl
  refine ⟨h1, ?_⟩
  rw [h1]
  intro h
  exact QueryNode.noConfusion (Option.some.inj h)

/-- C6 amended: for a system field named `id` (non-list, non-relation,
non-reference) declared on a root-entity type, compiling read access yields
the dedicated identity-accessor node rather than an ordinary field-storage
read. -/
theorem root_identity_field_id_node (fuel : Nat) (m : Model) (r : FieldRef)
    (f : FieldConfig) (src : QueryNode)
    (hf : fieldAt m r = some f)
    (hdecl : declKind m r = some TypeKind.rootEntity)
    (hsys : f.isSystemField = true)
    (hname : f.name = "id")
    (hlist : f.isList = false)
    (hrel : f.isRelation = false)
    (href : f.isReference = false) :
    createFieldNode (fuel + 1) m r src = some (QueryNode.rootEntityID src) := by
  unfold createFieldNode
  rw [hf]
  simp [hlist, hrel, href, hdecl, hsys, hname]

/-- Witness for the amended C6 on the concrete `rootIdModel`. -/
theorem root_identity_field_id_node_witness :
    createFieldNode 1 rootIdModel (0, 0) (QueryNode.variable "src")
        = some (QueryNode.rootEntityID (QueryNode.variable "src")) :=
  root_identity_field_id_node 0 rootIdModel (0, 0)
    { name := "id", typeName := "ID", isSystemField := true }
    (QueryNode.variable "src") rfl rfl rfl rfl rfl rfl rfl

/-- `firstIdxFrom` finds `i` when `i` satisfies the predicate, lies in the
scanned range, and is the only index in that range satisfying it. -/
theorem firstIdxFrom_eq_some (p : Nat → Bool) :
    ∀ (len start i : Nat), p i = true →
    (∀ j, start ≤ j → j < start + len → p j = true → j = i) →
    start ≤ i → i < start + len →
    firstIdxFrom p start len = some i := by
  intro len
  induction len with
  | zero =>
    intro start i _ _ hle hlt
    omega
  | succ n ih =>
    intro start i hp hu hle hlt
    unfold firstIdxFrom
    by_cases h : p start = true
    · have hstart : start = i := hu start (Nat.le_refl _) (by omega) h
      subst hstart
      simp [h]
    · have hne : start ≠ i := fun e => h (by rw [e]; exact hp)
      simp only [h, Bool.false_eq_true, if_false]
      exact ih (start + 1) i hp
        (fun j hj1 hj2 hpj => hu j (by omega) (by omega) hpj)
        (by omega) (by omega)

/-- C2: for a relation field `A` on root-entity type `T` targeting
root-entity type `U` without declaring an inverse, and the field `B` on `U`
targeting `T` that declares `inverseOf` naming `A` (and is the only such
field), resolving the relation from either side yields relations with
identical components: fromType `T`, fromField `A`, toType `U`, toField `B`,
with `A` on the from side and `B` on the to side. -/
theorem relation_resolution_side_agreement (m : Model)
    (tIdx uIdx aIdx bIdx : Nat) (T U : TypeConfig) (Af Bf : FieldConfig)
    (hT : typeAt m tIdx = some T)
    (hU : typeAt m uIdx = some U)
    (hTroot : T.kind = TypeKind.rootEntity)
    (hUroot : U.kind = TypeKind.rootEntity)
    (hA : T.fields[aIdx]? = some Af)
    (hB : U.fields[bIdx]? = some Bf)
    (hArel : Af.isRelation = true)
    (hBrel : Bf.isRelation = true)
    (hAty : getTypeIdx m Af.typeName = some uIdx)
    (hBty : getTypeIdx m Bf.typeName = some tIdx)
    (hAnoInv : Af.inverseOfFieldName = none)
    (hBinv : Bf.inverseOfFieldName = some Af.name)
    (hAname : findFieldIdx T Af.name = some aIdx)
    (hUniq : ∀ j, j < U.fields.length →
        inverseOfRef m (uIdx, j) = some (tIdx, aIdx) → j = bIdx) :
    relationSideRef m (tIdx, aIdx)
        = some { relation := { fromType := tIdx, fromField := (tIdx, aIdx),
                               toType := uIdx, toField := some (uIdx, bIdx) },
                 side := Side.fromSide }
    ∧ relationSideRef m (uIdx, bIdx)
        = some { relation := { fromType := tIdx, fromField := (tIdx, aIdx),
                               toType := uIdx, toField := some (uIdx, bIdx) },
                 side := Side.toSide }
    ∧ relationRef m (tIdx, aIdx) = relationRef m (uIdx, bIdx) := by
  have hfa : fieldAt m (tIdx, aIdx) = some Af := by
    simp [fieldAt, hT, hA]
  have hfb : fieldAt m (uIdx, bIdx) = some Bf := by
    simp [fieldAt, hU, hB]
  have hBinvRes : inverseOfRef m (uIdx, bIdx) = some (tIdx, aIdx) := by
    simp only [inverseOfRef, hfb, hBinv, hBty, hT, hTroot,
      TypeKind.isObjectType, if_true, hAname]
    rfl
  have hAinvNone : inverseOfRef m (tIdx, aIdx) = none := by
    simp only [inverseOfRef, hfa, hAnoInv]
  have hblen : bIdx < U.fields.length := by
    rcases List.getElem?_eq_some.mp hB with ⟨hlt, _⟩
    exact hlt
  have hInvField : inverseFieldRef m (tIdx, aIdx) = some (uIdx, bIdx) := by
    simp only [inverseFieldRef, hfa, hAty, hU, hUroot,
      TypeKind.isObjectType, if_true]
    rw [firstIdxFrom_eq_some _ U.fields.length 0 bIdx
      (by simp [hBinvRes])
      (fun j _ hj2 hpj => hUniq j (by omega) (by simpa using hpj))
      (Nat.zero_le _) (by omega)]
    rfl
  have hTK : typeKind m Af.typeName = some TypeKind.rootEntity := by
    simp [typeKind, hAty, hU, hUroot]
  have hTK2 : typeKind m Bf.typeName = some TypeKind.rootEntity := by
    simp [typeKind, hBty, hT, hTroot]
  have hsideA : relationSideRef m (tIdx, aIdx)
      = some { relation := { fromType := tIdx, fromField := (tIdx, aIdx),
                             toType := uIdx, toField := some (uIdx, bIdx) },
               side := Side.fromSide } := by
    simp only [relationSideRef, hfa, hT, hArel, hTroot, hAty, hTK,
      hAinvNone, hInvField]
    simp
  have hsideB : relationSideRef m (uIdx, bIdx)
      = some { relation := { fromType := tIdx, fromField := (tIdx, aIdx),
                             toType := uIdx, toField := some (uIdx, bIdx) },
               side := Side.toSide } := by
    simp only [relationSideRef, hfb, hU, hBrel, hUroot, hBty, hTK2, hBinvRes]
    simp
  exact ⟨hsideA, hsideB, by simp [relationRef, hsideA, hsideB]⟩

/-- Witness for C2 on `relPairModel`: `Movie.actors` and `Actor.movie`
resolve to the same relation. -/
theorem relation_resolution_side_agreement_witness :
    relationSideRef relPairModel (0, 0)
        = some { relation := { fromType := 0, fromField := (0, 0),
                               toType := 1, toField := some (1, 0) },
                 side := Side.fromSide }
    ∧ relationSideRef relPairModel (1, 0)
        = some { relation := { fromType := 0, fromField := (0, 0),
                               toType := 1, toField := some (1, 0) },
                 side := Side.toSide }
    ∧ relationRef relPairModel (0, 0) = relationRef relPairModel (1, 0) :=
  relation_resolution_side_agreement relPairModel 0 1 0 0
    { name := "Movie", kind := TypeKind.rootEntity,
      fields := [{ name := "actors", typeName := "Actor", isRelation := true }] }
    { name := "Actor", kind := TypeKind.rootEntity,
      fields := [{ name := "movie", typeName := "Movie", isRelation := true,
                   inverseOfFieldName := some "actors" }] }
    { name := "actors", typeName := "Actor", isRelation := true }
    { name := "movie", typeName := "Movie", isRelation := true,
      inverseOfFieldName := some "actors" }
    rfl rfl rfl rfl rfl rfl rfl rfl rfl rfl rfl rfl rfl
    (by decide)

/-- C4: for a relation field without a declared inverse whose target type
has two or more fields declaring `inverseOf` naming it, relation validation
appends one error per matching field, each attached to that matching field's
location. -/
theorem multiple_inverse_fields_one_error_each (m : Model) (r : FieldRef)
    (f : FieldConfig) (ti : Nat) (U : TypeConfig) (declName : String)
    (hf : fieldAt m r = some f)
    (hrel : f.isRelation = true)
    (hdecl : declKind m r = some TypeKind.rootEntity)
    (ht : getTypeIdx m f.typeName = some ti)
    (hU : typeAt m ti = some U)
    (hUroot : U.kind = TypeKind.rootEntity)
    (hnoInv : f.inverseOfFieldName = none)
    (hlen : 2 ≤ (inverseFieldIdxs m ti U r).length) :
    validateRelation m f r declName =
      (inverseFieldIdxs m ti U r).map (fun j =>
        errMsg (MsgText.multipleInverseFields (multipleInverseNames m ti U r)
          declName f.name) (ti, j)) := by
  have hvalid : hasValidType m f = true := by
    simp [hasValidType, ht]
  have hTK : typeKind m f.typeName = some TypeKind.rootEntity := by
    simp [typeKind, ht, hU, hUroot]
  unfold validateRelation
  simp only [hrel, hdecl, hvalid, hTK, ht, hU, hnoInv, Bool.not_true,
    Bool.false_eq_true, if_false, bne_self_eq_false]
  have h0 : ¬ (inverseFieldIdxs m ti U r).length = 0 := by omega
  have h1 : (inverseFieldIdxs m ti U r).length > 1 := by omega
  simp [h0, h1]

/-- Witness for C4 on `multiInverseModel`: both `Actor.movieA` and
`Actor.movieB` declare `inverseOf: "actors"`, and each receives its own
error. -/
theorem multiple_inverse_fields_one_error_each_witness :
    validateRelation multiInverseModel
      { name := "actors", typeName := "Actor", isRelation := true }
      (0, 0) "Movie" =
      [errMsg (MsgText.multipleInverseFields ["Actor.movieA", "Actor.movieB"]
         "Movie" "actors") (1, 0),
       errMsg (MsgText.multipleInverseFields ["Actor.movieA", "Actor.movieB"]
         "Movie" "actors") (1, 1)] :=
  multiple_inverse_fields_one_error_each multiInverseModel (0, 0)
    { name := "actors", typeName := "Actor", isRelation := true } 1
    { name := "Actor", kind := TypeKind.rootEntity,
      fields := [{ name := "movieA", typeName := "Movie", isRelation := true,
                   inverseOfFieldName := some "actors" },
                 { name := "movieB", typeName := "Movie", isRelation := true,
                   inverseOfFieldName := some "actors" }] }
    "Movie" rfl rfl rfl rfl rfl rfl rfl (by decide)

/-- The calc-mutation loop with every declared operator present in the table
collects exactly the per-operator unsupported-type errors. -/
theorem calcMutationsLoop_all_found (table : List CalcMutationOperator)
    (typeName : String) (supported : List String) (r : FieldRef) :
    ∀ ops : List String,
    (∀ op ∈ ops, (table.find? (fun d => d.name == op)).isSome = true) →
    calcMutationsLoop table typeName supported r ops =
      Except.ok (ops.filterMap (fun op =>
        match table.find? (fun d => d.name == op) with
        | none => none
        | some desc =>
          if desc.supportedTypes.contains typeName then none
          else some (errMsg (MsgText.calcMutationsOperatorNotSupported op
            typeName supported) r))) := by
  intro ops
  induction ops with
  | nil =>
    intro _
    rfl
  | cons op rest ih =>
    intro h
    have hop := h op (List.mem_cons_self op rest)
    unfold calcMutationsLoop
    cases hfind : table.find? (fun d => d.name == op) with
    | none =>
      rw [hfind] at hop
      simp at hop
    | some desc =>
      rw [ih (fun o ho => h o (List.mem_cons_of_mem op ho))]
      simp only [List.filterMap_cons, hfind]
      by_cases hsup : typeName ∈ desc.supportedTypes
      · simp [hsup]
      · simp [hsup]

/-- The calc-mutation loop raises when some declared operator is absent from
the table. -/
theorem calcMutationsLoop_missing (table : List CalcMutationOperator)
    (typeName : String) (supported : List String) (r : FieldRef) :
    ∀ ops : List String,
    (∃ op ∈ ops, table.find? (fun d => d.name == op) = none) →
    ∃ e, calcMutationsLoop table typeName supported r ops = Except.error e := by
  intro ops
  induction ops with
  | nil =>
    intro h
    rcases h with ⟨op, hmem, _⟩
    exact absurd hmem (List.not_mem_nil op)
  | cons op rest ih =>
    intro h
    unfold calcMutationsLoop
    cases hfind : table.find? (fun d => d.name == op) with
    | none =>
      exact ⟨_, rfl⟩
    | some desc =>
      rcases h with ⟨o, hmem, hnone⟩
      rcases List.mem_cons.mp hmem with heq | hrest
      · subst heq
        rw [hfind] at hnone
        exact absurd hnone (by simp)
      · rcases ih ⟨o, hrest, hnone⟩ with ⟨e, he⟩
        rw [he]
        exact ⟨e, rfl⟩

/-- C5 counterexample: a non-list `Boolean` field declaring `ADD` (in the
table but not supporting `Boolean`) and `FOO` (absent from the table) gets a
single generic no-supported-operators error and no thrown exception — no
per-operator diagnostic citing a supported-operator list, and no fatal error
for the unknown operator. -/
theorem unknown_operator_without_support_is_collected :
    validateCalcMutations addOnlyTable boolCalcField (0, 0)
      = Except.ok [errMsg (MsgText.calcMutationsNoSupportedOperators "Boolean")
          (0, 0)] := rfl

/-- C5 amended: for a field with declared calc-mutation operators: a list
field gets one error and no further checks; a non-list field whose type no
table operator supports gets one generic error and nothing is raised; when
at least one table operator supports the type, each declared in-table
operator not supporting the type yields an error citing the supported
operator names, and a declared operator absent from the table raises a
fatal error. -/
theorem calc_mutations_validation (table : List CalcMutationOperator)
    (f : FieldConfig) (r : FieldRef)
    (hops : f.calcMutationOperators.eraseDups ≠ []) :
    (f.isList = true →
      validateCalcMutations table f r
        = Except.ok [errMsg MsgText.calcMutationsOnList r])
    ∧ (f.isList = false → supportedOperatorNames table f.typeName = [] →
      validateCalcMutations table f r
        = Except.ok [errMsg (MsgText.calcMutationsNoSupportedOperators
            f.typeName) r])
    ∧ (f.isList = false → supportedOperatorNames table f.typeName ≠ [] →
      (∀ op ∈ f.calcMutationOperators.eraseDups,
        (table.find? (fun d => d.name == op)).isSome = true) →
      validateCalcMutations table f r =
        Except.ok (f.calcMutationOperators.eraseDups.filterMap (fun op =>
          match table.find? (fun d => d.name == op) with
          | none => none
          | some desc =>
            if desc.supportedTypes.contains f.typeName then none
            else some (errMsg (MsgText.calcMutationsOperatorNotSupported op
              f.typeName (supportedOperatorNames table f.typeName)) r))))
    ∧ (f.isList = false → supportedOperatorNames table f.typeName ≠ [] →
      (∃ op ∈ f.calcMutationOperators.eraseDups,
        table.find? (fun d => d.name == op) = none) →
      ∃ e, validateCalcMutations table f r = Except.error e) := by
  have hne : f.calcMutationOperators.eraseDups.isEmpty = false := by
    cases hv : f.calcMutationOperators.eraseDups with
    | nil => exact absurd hv hops
    | cons a l => rfl
  refine ⟨?_, ?_, ?_, ?_⟩
  · intro hlist
    unfold validateCalcMutations
    simp [hne, hlist]
  · intro hlist hsup
    unfold validateCalcMutations
    simp [hne, hlist, hsup]
  · intro hlist hsup hall
    unfold validateCalcMutations
    have hsupb : (supportedOperatorNames table f.typeName).isEmpty = false := by
      cases hv : supportedOperatorNames table f.typeName with
      | nil => exact absurd hv hsup
      | cons a l => rfl
    simp only [hne, hlist, hsupb, Bool.false_eq_true, if_false]
    exact calcMutationsLoop_all_found table f.typeName _ r _ hall
  · intro hlist hsup hmissing
    unfold validateCalcMutations
    have hsupb : (supportedOperatorNames table f.typeName).isEmpty = false := by
      cases hv : supportedOperatorNames table f.typeName with
      | nil => exact absurd hv hsup
      | cons a l => rfl
    simp only [hne, hlist, hsupb, Bool.false_eq_true, if_false]
    exact calcMutationsLoop_missing table f.typeName _ r _ hmissing

/-- Witness for the amended C5 at a concrete input: the list case. -/
theorem calc_mutations_validation_witness :
    validateCalcMutations addOnlyTable
      { name := "xs", typeName := "Int", isList := true,
        calcMutationOperators := ["ADD"] } (0, 0)
      = Except.ok [errMsg MsgText.calcMutationsOnList (0, 0)] :=
  (calc_mutations_validation addOnlyTable
    { name := "xs", typeName := "Int", isList := true,
      calcMutationOperators := ["ADD"] } (0, 0) (by decide)).1 rfl

/-- Matches the text of the doubly-declared-inverse diagnostic. -/
def isInverseDeclaresInverseText : MsgText → Bool
  | MsgText.inverseFieldDeclaresInverse _ _ _ _ => true
  | _ => false

/-- The messages C3 counts: doubly-declared-inverse errors attached to the
field `X`. -/
def isInverseDeclaresInverseAt (X : FieldRef) (msg : ValidationMessage) : Bool :=
  isInverseDeclaresInverseText msg.text && msg.loc == X

/-- Name validation never emits the doubly-declared-inverse diagnostic. -/
theorem validateName_no_invDecl (n : String) (r : FieldRef) :
    ∀ msg ∈ validateName n r, isInverseDeclaresInverseText msg.text = false := by
  intro msg h
  unfold validateName at h
  repeat' split at h
  all_goals simp_all [errMsg, warnMsg, isInverseDeclaresInverseText]

/-- Type validation never emits the doubly-declared-inverse diagnostic. -/
theorem validateType_no_invDecl (m : Model) (f : FieldConfig) (r : FieldRef) :
    ∀ msg ∈ validateType m f r,
    isInverseDeclaresInverseText msg.text = false := by
  intro msg h
  unfold validateType at h
  repeat' split at h
  all_goals simp_all [errMsg, isInverseDeclaresInverseText]

/-- Permission validation never emits the doubly-declared-inverse
diagnostic. -/
theorem validatePermissions_no_invDecl (m : Model) (f : FieldConfig)
    (r : FieldRef) :
    ∀ msg ∈ validatePermissions m f r,
    isInverseDeclaresInverseText msg.text = false := by
  intro msg h
  unfold validatePermissions at h
  simp only [List.mem_append] at h
  rcases h with h | h <;> repeat' split at h
  all_goals simp_all [errMsg, isInverseDeclaresInverseText]

/-- Root-entity embedding validation never emits the doubly-declared-inverse
diagnostic. -/
theorem validateRootEntityType_no_invDecl (m : Model) (f : FieldConfig)
    (r : FieldRef) :
    ∀ msg ∈ validateRootEntityType m f r,
    isInverseDeclaresInverseText msg.text = false := by
  intro msg h
  unfold validateRootEntityType at h
  simp only [List.mem_append] at h
  rcases h with h | h <;> repeat' split at h
  all_goals simp_all [errMsg, isInverseDeclaresInverseText]

/-- Entity-extension validation never emits the doubly-declared-inverse
diagnostic. -/
theorem validateEntityExtensionType_no_invDecl (m : Model) (f : FieldConfig)
    (r : FieldRef) (declName : String) :
    ∀ msg ∈ validateEntityExtensionType m f r declName,
    isInverseDeclaresInverseText msg.text = false := by
  intro msg h
  unfold validateEntityExtensionType at h
  repeat' split at h
  all_goals simp_all [errMsg, isInverseDeclaresInverseText]

/-- Child-entity validation never emits the doubly-declared-inverse
diagnostic. -/
theorem validateChildEntityType_no_invDecl (m : Model) (f : FieldConfig)
    (r : FieldRef) (declName : String) :
    ∀ msg ∈ validateChildEntityType m f r declName,
    isInverseDeclaresInverseText msg.text = false := by
  intro msg h
  unfold validateChildEntityType at h
  repeat' split at h
  all_goals simp_all [errMsg, isInverseDeclaresInverseText]

/-- Reference validation never emits the doubly-declared-inverse
diagnostic. -/
theorem validateReference_no_invDecl (m : Model) (f : FieldConfig)
    (r : FieldRef) :
    ∀ msg ∈ validateReference m f r,
    isInverseDeclaresInverseText msg.text = false := by
  intro msg h
  unfold validateReference at h
  repeat' split at h
  all_goals
    first
    | (simp_all [errMsg, isInverseDeclaresInverseText, List.mem_append]; done)
    | (simp only [errMsg, List.mem_append, List.mem_singleton,
        List.not_mem_nil, or_false, false_or] at h
       rcases h with rfl | rfl <;> rfl)

/-- Default-value validation never emits the doubly-declared-inverse
diagnostic. -/
theorem validateDefaultValue_no_invDecl (f : FieldConfig) (r : FieldRef) :
    ∀ msg ∈ validateDefaultValue f r,
    isInverseDeclaresInverseText msg.text = false := by
  intro msg h
  unfold validateDefaultValue at h
  repeat' split at h
  all_goals simp_all [errMsg, infoMsg, isInverseDeclaresInverseText]

/-- The calc-mutation loop never emits the doubly-declared-inverse
diagnostic. -/
theorem calcMutationsLoop_no_invDecl (table : List CalcMutationOperator)
    (typeName : String) (supported : List String) (r : FieldRef) :
    ∀ ops ms, calcMutationsLoop table typeName supported r ops = Except.ok ms →
    ∀ msg ∈ ms, isInverseDeclaresInverseText msg.text = false := by
  intro ops
  induction ops with
  | nil =>
    intro ms h msg hmsg
    obtain rfl := Except.ok.inj h
    simp at hmsg
  | cons op rest ih =>
    intro ms h msg hmsg
    unfold calcMutationsLoop at h
    cases hfind : List.find? (fun d => d.name == op) table with
    | none =>
      rw [hfind] at h
      cases h
    | some desc =>
      rw [hfind] at h
      cases hrest : calcMutationsLoop table typeName supported r rest with
      | error e =>
        rw [hrest] at h
        cases h
      | ok msgs =>
        rw [hrest] at h
        obtain rfl := Except.ok.inj h
        simp only [List.mem_append] at hmsg
        rcases hmsg with hmsg | hmsg
        · split at hmsg <;> simp_all [errMsg, isInverseDeclaresInverseText]
        · exact ih msgs hrest msg hmsg

/-- Calc-mutation validation never emits the doubly-declared-inverse
diagnostic. -/
theorem validateCalcMutations_no_invDecl (table : List CalcMutationOperator)
    (f : FieldConfig) (r : FieldRef) (ms : List ValidationMessage)
    (h : validateCalcMutations table f r = Except.ok ms) :
    ∀ msg ∈ ms, isInverseDeclaresInverseText msg.text = false := by
  intro msg hmsg
  unfold validateCalcMutations at h
  by_cases h1 : f.calcMutationOperators.eraseDups.isEmpty = true
  · simp only [h1, if_true] at h
    obtain rfl := Except.ok.inj h
    simp at hmsg
  · by_cases h2 : f.isList = true
    · simp only [h1, h2, if_true, Bool.false_eq_true, if_false] at h
      obtain rfl := Except.ok.inj h
      simp only [List.mem_singleton] at hmsg
      subst hmsg
      rfl
    · by_cases h3 : (supportedOperatorNames table f.typeName).isEmpty = true
      · simp only [h1, h2, h3, if_true, Bool.false_eq_true, if_false] at h
        obtain rfl := Except.ok.inj h
        simp only [List.mem_singleton] at hmsg
        subst hmsg
        rfl
      · simp only [h1, h2, h3, Bool.false_eq_true, if_false] at h
        exact calcMutationsLoop_no_invDecl table f.typeName _ r _ ms h msg hmsg

/-- Any doubly-declared-inverse diagnostic emitted by relation validation
for the field at `r` is attached to `r` itself. -/
theorem validateRelation_invDecl_loc (m : Model) (f : FieldConfig)
    (r : FieldRef) (declName : String) :
    ∀ msg ∈ validateRelation m f r declName,
    isInverseDeclaresInverseText msg.text = true → msg.loc = r := by
  intro msg h ht
  unfold validateRelation at h
  split at h
  · simp at h
  · simp only [List.mem_append] at h
    rcases h with h | h
    · split at h <;> simp_all [errMsg]
    · repeat' split at h
      all_goals
        first
        | (simp_all [errMsg, warnMsg, isInverseDeclaresInverseText]; done)
        | (simp only [errMsg, List.mem_map] at h
           rcases h with ⟨j, hj, rfl⟩
           simp [isInverseDeclaresInverseText] at ht)

/-- Any doubly-declared-inverse diagnostic in a field's validation output is
attached to that field. -/
theorem validateField_invDecl_loc (table : List CalcMutationOperator)
    (m : Model) (r : FieldRef) (ms : List ValidationMessage)
    (h : validateField table m r = Except.ok ms) :
    ∀ msg ∈ ms, isInverseDeclaresInverseText msg.text = true → msg.loc = r := by
  intro msg hmsg ht
  unfold validateField at h
  cases hfa : fieldAt m r with
  | none =>
    rw [hfa] at h
    obtain rfl := Except.ok.inj h
    simp at hmsg
  | some f =>
    simp only [hfa] at h
    cases hcalc : validateCalcMutations table f r with
    | error e =>
      simp only [hcalc] at h
      cases h
    | ok calcMsgs =>
      simp only [hcalc] at h
      obtain rfl := Except.ok.inj h
      simp only [List.mem_append] at hmsg
      rcases hmsg with
        (((((((((hm | hm) | hm) | hm) | hm) | hm) | hm) | hm) | hm) | hm)
      · rw [validateName_no_invDecl f.name r msg hm] at ht
        simp at ht
      · rw [validateType_no_invDecl m f r msg hm] at ht
        simp at ht
      · rw [validatePermissions_no_invDecl m f r msg hm] at ht
        simp at ht
      · rw [validateRootEntityType_no_invDecl m f r msg hm] at ht
        simp at ht
      · rw [validateEntityExtensionType_no_invDecl m f r _ msg hm] at ht
        simp at ht
      · rw [validateChildEntityType_no_invDecl m f r _ msg hm] at ht
        simp at ht
      · exact validateRelation_invDecl_loc m f r _ msg hm ht
      · rw [validateReference_no_invDecl m f r msg hm] at ht
        simp at ht
      · rw [validateDefaultValue_no_invDecl f r msg hm] at ht
        simp at ht
      · rw [validateCalcMutations_no_invDecl table f r calcMsgs hcalc msg hm] at ht
        simp at ht

/-- A field other than `X` contributes no doubly-declared-inverse diagnostic
attached to `X`. -/
theorem validateField_filter_ne (table : List CalcMutationOperator)
    (m : Model) (q X : FieldRef) (ms1 : List ValidationMessage)
    (h1 : validateField table m q = Except.ok ms1) (hne : q ≠ X) :
    ms1.filter (isInverseDeclaresInverseAt X) = [] := by
  apply List.filter_eq_nil_iff.mpr
  intro msg hmsg hc
  simp only [isInverseDeclaresInverseAt, Bool.and_eq_true, beq_iff_eq] at hc
  obtain ⟨htext, hloc⟩ := hc
  exact hne ((validateField_invDecl_loc table m q ms1 h1 msg hmsg htext).symm.trans hloc)

/-- Every field of a successfully validated field list validates
successfully. -/
theorem validateFieldList_ok_of_mem (table : List CalcMutationOperator)
    (m : Model) :
    ∀ (refs : List FieldRef) (ms : List ValidationMessage) (r : FieldRef),
    validateFieldList table m refs = Except.ok ms → r ∈ refs →
    ∃ msr, validateField table m r = Except.ok msr := by
  intro refs
  induction refs with
  | nil =>
    intro ms r _ hr
    simp at hr
  | cons q rest ih =>
    intro ms r h hr
    unfold validateFieldList at h
    cases h1 : validateField table m q with
    | error e =>
      rw [h1] at h
      cases h
    | ok ms1 =>
      rw [h1] at h
      cases h2 : validateFieldList table m rest with
      | error e =>
        rw [h2] at h
        cases h
      | ok ms2 =>
        rcases List.mem_cons.mp hr with rfl | hr2
        · exact ⟨ms1, h1⟩
        · exact ih ms2 r h2 hr2

/-- A field list not containing `X` contributes no doubly-declared-inverse
diagnostic attached to `X`. -/
theorem validateFieldList_filter_nil (table : List CalcMutationOperator)
    (m : Model) (X : FieldRef) :
    ∀ (refs : List FieldRef) (ms : List ValidationMessage),
    validateFieldList table m refs = Except.ok ms → X ∉ refs →
    ms.filter (isInverseDeclaresInverseAt X) = [] := by
  intro refs
  induction refs with
  | nil =>
    intro ms h _
    obtain rfl := Except.ok.inj h
    rfl
  | cons q rest ih =>
    intro ms h hX
    unfold validateFieldList at h
    cases h1 : validateField table m q with
    | error e =>
      rw [h1] at h
      cases h
    | ok ms1 =>
      rw [h1] at h
      cases h2 : validateFieldList table m rest with
      | error e =>
        rw [h2] at h
        cases h
      | ok ms2 =>
        rw [h2] at h
        obtain rfl := Except.ok.inj h
        rw [List.filter_append]
        have hqX : q ≠ X := fun e => hX (e ▸ List.mem_cons_self q rest)
        rw [validateField_filter_ne table m q X ms1 h1 hqX, List.nil_append]
        exact ih ms2 h2 (fun hmem => hX (List.mem_cons_of_mem q hmem))

/-- When `X` occurs exactly once in the validated (duplicate-free) field
list, the doubly-declared-inverse diagnostics attached to `X` are exactly
those of `X`'s own validation. -/
theorem validateFieldList_filter_single (table : List CalcMutationOperator)
    (m : Model) (X : FieldRef) (msX : List ValidationMessage)
    (hX : validateField table m X = Except.ok msX) :
    ∀ (refs : List FieldRef) (ms : List ValidationMessage),
    validateFieldList table m refs = Except.ok ms →
    refs.Nodup → X ∈ refs →
    ms.filter (isInverseDeclaresInverseAt X)
      = msX.filter (isInverseDeclaresInverseAt X) := by
  intro refs
  induction refs with
  | nil =>
    intro ms _ _ hmem
    simp at hmem
  | cons q rest ih =>
    intro ms h hnd hmem
    unfold validateFieldList at h
    cases h1 : validateField table m q with
    | error e =>
      rw [h1] at h
      cases h
    | ok ms1 =>
      rw [h1] at h
      cases h2 : validateFieldList table m rest with
      | error e =>
        rw [h2] at h
        cases h
      | ok ms2 =>
        rw [h2] at h
        obtain rfl := Except.ok.inj h
        rw [List.filter_append]
        by_cases hqX : q = X
        · subst hqX
          rw [h1] at hX
          obtain rfl := Except.ok.inj hX
          rw [validateFieldList_filter_nil table m q rest ms2 h2
            (List.nodup_cons.mp hnd).1, List.append_nil]
        · rw [validateField_filter_ne table m q X ms1 h1 hqX, List.nil_append]
          rcases List.mem_cons.mp hmem with he | hmem2
          · exact absurd he.symm hqX
          · exact ih ms2 h2 (List.nodup_cons.mp hnd).2 hmem2

/-- A valid field address is listed by `allFieldRefs`. -/
theorem mem_allFieldRefs (m : Model) (X : FieldRef) (T : TypeConfig)
    (hT : typeAt m X.1 = some T) (hX : X.2 < T.fields.length) :
    X ∈ allFieldRefs m := by
  have hlt : X.1 < m.types.length := by
    unfold typeAt at hT
    rcases List.getElem?_eq_some.mp hT with ⟨hl, _⟩
    exact hl
  simp only [allFieldRefs, List.mem_flatMap, List.mem_range]
  refine ⟨X.1, hlt, ?_⟩
  simp only [List.mem_map, List.mem_range]
  exact ⟨X.2, by simp [hT, hX], rfl⟩

/-- `allFieldRefs` lists each address at most once. -/
theorem nodup_allFieldRefs (m : Model) : (allFieldRefs m).Nodup := by
  unfold allFieldRefs
  apply List.nodup_flatMap.mpr
  constructor
  · intro i _
    exact (List.nodup_range _).map (fun a b hab => by simpa using hab)
  · apply List.Pairwise.imp ?_ (List.pairwise_lt_range m.types.length)
    intro a b hab x hxa hxb
    rcases List.mem_map.mp hxa with ⟨j, _, rfl⟩
    rcases List.mem_map.mp hxb with ⟨k, _, hk⟩
    have : b = a := congrArg Prod.fst hk
    omega

/-- A message list free of doubly-declared-inverse texts filters to nothing
under the C3 predicate. -/
theorem filter_invDecl_eq_nil_of_no (X : FieldRef)
    (l : List ValidationMessage)
    (hl : ∀ msg ∈ l, isInverseDeclaresInverseText msg.text = false) :
    l.filter (isInverseDeclaresInverseAt X) = [] := by
  apply List.filter_eq_nil_iff.mpr
  intro a ha hc
  simp only [isInverseDeclaresInverseAt, Bool.and_eq_true] at hc
  rw [hl a ha] at hc
  exact absurd hc.1 (by simp)

/-- C3 counterexample: in `danglingInverseModel`, `Movie.actors` declares
`inverseOf` the field `Actor.movie`, which is a relation targeting back
`Movie` and itself declares an inverse (`"ghost"`, which does not resolve);
whole-model validation emits no doubly-declared-inverse error attached to
`Movie.actors` — not exactly one. -/
theorem dangling_second_level_inverse_no_error :
    validateModel [] danglingInverseModel
      = Except.ok [errMsg (MsgText.inverseFieldDoesNotExist "ghost" "Movie")
          (1, 0)]
    ∧ ([errMsg (MsgText.inverseFieldDoesNotExist "ghost" "Movie")
          (1, 0)]).filter (isInverseDeclaresInverseAt (0, 0)) = [] :=
  ⟨rfl, rfl⟩

/-- C3 amended: for a relation field `X` declaring `inverseOf` a field `Y`
on its valid root-entity target type, where `Y` is a relation targeting back
`X`'s declaring type and `Y`'s own declared inverse resolves to an existing
field, validating the whole model yields exactly one doubly-declared-inverse
error attached to `X`. -/
theorem second_level_inverse_single_error
    (table : List CalcMutationOperator) (m : Model)
    (msgs : List ValidationMessage) (ti0 fi0 ui yi : Nat)
    (T U : TypeConfig) (Xf Yf : FieldConfig) (yn : String)
    (hvm : validateModel table m = Except.ok msgs)
    (hT : typeAt m ti0 = some T)
    (hX : T.fields[fi0]? = some Xf)
    (hXrel : Xf.isRelation = true)
    (hXinv : Xf.inverseOfFieldName = some yn)
    (hty : getTypeIdx m Xf.typeName = some ui)
    (hU : typeAt m ui = some U)
    (hUroot : U.kind = TypeKind.rootEntity)
    (hy : findFieldIdx U yn = some yi)
    (hYf : U.fields[yi]? = some Yf)
    (hYty : getTypeIdx m Yf.typeName = some ti0)
    (hYrel : Yf.isRelation = true)
    (hYinv : (inverseOfRef m (ui, yi)).isSome = true) :
    msgs.filter (isInverseDeclaresInverseAt (ti0, fi0)) =
      [errMsg (MsgText.inverseFieldDeclaresInverse U.name yn T.name Xf.name)
        (ti0, fi0)] := by
  have hfa : fieldAt m (ti0, fi0) = some Xf := by
    simp [fieldAt, hT, hX]
  have hvalid : hasValidType m Xf = true := by
    simp [hasValidType, hty]
  have hTK : typeKind m Xf.typeName = some TypeKind.rootEntity := by
    simp [typeKind, hty, hU, hUroot]
  have hrel : validateRelation m Xf (ti0, fi0) T.name
      = (if declKind m (ti0, fi0) != some TypeKind.rootEntity then
          [errMsg MsgText.relationOnNonRootEntity (ti0, fi0)] else [])
        ++ [errMsg (MsgText.inverseFieldDeclaresInverse U.name yn T.name
            Xf.name) (ti0, fi0)] := by
    unfold validateRelation
    simp only [hXrel, Bool.not_true, Bool.false_eq_true, if_false, hvalid,
      hTK, hty, hU, hXinv, hy, hYf, hYty, hYrel, hYinv, bne_self_eq_false,
      Bool.not_false, if_true]
  have hfilter_rel : (validateRelation m Xf (ti0, fi0) T.name).filter
      (isInverseDeclaresInverseAt (ti0, fi0))
      = [errMsg (MsgText.inverseFieldDeclaresInverse U.name yn T.name
          Xf.name) (ti0, fi0)] := by
    rw [hrel, List.filter_append]
    have h1 : (if declKind m (ti0, fi0) != some TypeKind.rootEntity then
        [errMsg MsgText.relationOnNonRootEntity (ti0, fi0)] else []).filter
        (isInverseDeclaresInverseAt (ti0, fi0)) = [] := by
      split <;>
        simp [isInverseDeclaresInverseAt, isInverseDeclaresInverseText, errMsg]
    rw [h1, List.nil_append]
    simp [isInverseDeclaresInverseAt, isInverseDeclaresInverseText, errMsg]
  have hfi0 : fi0 < T.fields.length := (List.getElem?_eq_some.mp hX).1
  have hmem : (ti0, fi0) ∈ allFieldRefs m :=
    mem_allFieldRefs m (ti0, fi0) T hT hfi0
  obtain ⟨msX, hmsX⟩ := validateFieldList_ok_of_mem table m (allFieldRefs m)
    msgs (ti0, fi0) hvm hmem
  have hmsXfilter : msX.filter (isInverseDeclaresInverseAt (ti0, fi0))
      = [errMsg (MsgText.inverseFieldDeclaresInverse U.name yn T.name
          Xf.name) (ti0, fi0)] := by
    have h := hmsX
    unfold validateField at h
    simp only [hfa] at h
    cases hcalc : validateCalcMutations table Xf (ti0, fi0) with
    | error e =>
      simp only [hcalc] at h
      cases h
    | ok calcMsgs =>
      simp only [hcalc] at h
      obtain rfl := (Except.ok.inj h).symm
      have hdecl : (Option.map (fun t => t.name) (typeAt m (ti0, fi0).1)).getD ""
          = T.name := by
        simp [hT]
      rw [hdecl]
      simp only [List.filter_append]
      rw [filter_invDecl_eq_nil_of_no _ _ (validateName_no_invDecl Xf.name _),
        filter_invDecl_eq_nil_of_no _ _ (validateType_no_invDecl m Xf _),
        filter_invDecl_eq_nil_of_no _ _ (validatePermissions_no_invDecl m Xf _),
        filter_invDecl_eq_nil_of_no _ _ (validateRootEntityType_no_invDecl m Xf _),
        filter_invDecl_eq_nil_of_no _ _
          (validateEntityExtensionType_no_invDecl m Xf _ T.name),
        filter_invDecl_eq_nil_of_no _ _
          (validateChildEntityType_no_invDecl m Xf _ T.name),
        filter_invDecl_eq_nil_of_no _ _ (validateReference_no_invDecl m Xf _),
        filter_invDecl_eq_nil_of_no _ _ (validateDefaultValue_no_invDecl Xf _),
        filter_invDecl_eq_nil_of_no _ _
          (validateCalcMutations_no_invDecl table Xf _ calcMsgs hcalc),
        hfilter_rel]
      simp
  rw [validateFieldList_filter_single table m (ti0, fi0) msX hmsX
    (allFieldRefs m) msgs hvm (nodup_allFieldRefs m) hmem, hmsXfilter]

/-- Witness for the amended C3 on `resolvedDoubleInverseModel`:
`Movie.actors` declares `inverseOf: "movie"` while `Actor.movie` declares
the resolving inverse `"actors"`; exactly one doubly-declared-inverse error
is attached to `Movie.actors`. -/
theorem second_level_inverse_single_error_witness :
    ([errMsg (MsgText.inverseFieldDeclaresInverse "Actor" "movie" "Movie"
        "actors") (0, 0),
      errMsg (MsgText.inverseFieldDeclaresInverse "Movie" "actors" "Actor"
        "movie") (1, 0)]).filter (isInverseDeclaresInverseAt (0, 0)) =
      [errMsg (MsgText.inverseFieldDeclaresInverse "Actor" "movie" "Movie"
        "actors") (0, 0)] :=
  second_level_inverse_single_error [] resolvedDoubleInverseModel
    _ 0 0 1 0
    { name := "Movie", kind := TypeKind.rootEntity,
      fields := [{ name := "actors", typeName := "Actor", isRelation := true,
                   inverseOfFieldName := some "movie" }] }
    { name := "Actor", kind := TypeKind.rootEntity,
      fields := [{ name := "movie", typeName := "Movie", isRelation := true,
                   inverseOfFieldName := some "actors" }] }
    { name := "actors", typeName := "Actor", isRelation := true,
      inverseOfFieldName := some "movie" }
    { name := "movie", typeName := "Movie", isRelation := true,
      inverseOfFieldName := some "actors" }
    "movie" rfl rfl rfl rfl rfl rfl rfl rfl rfl rfl rfl rfl rfl
